import Mathlib

/-!
Shallow embedding of the repository's SSE client (`src/reqwest.rs`).

The client (`Client`) owns an optional buffered connection, the target url,
the sticky last-event-id, the last attempt timestamp, the retry interval and
the default headers.  `Iterator::next` drives the connect / read / reconnect
cycle.  Time is modelled by a logical clock carried in a `World`: reads are
instantaneous, `thread::sleep` advances the clock by the sleep duration, and
`Instant::now()` reads the clock.  Connect attempts are resolved by an oracle
`World.attempts : Nat → AttemptOutcome` consumed one index per attempt.
The recursive self-invocation of `next` at `src/reqwest.rs:171` is modelled
by a fuel parameter: one unit of fuel per invocation of `next`, so the fuel
needed on a given input is exactly the recursion depth of the Rust code.
-/

namespace EventSource

/-- One dispatched SSE message (struct `Event` of the `event` module). -/
structure Event where
  id : Option String
  event_type : String
  data : String
deriving DecidableEq, Repr

/-- `Event::new()`: empty accumulator with the default type `"message"`. -/
def Event.new : Event := { id := none, event_type := "message", data := "" }

/-- Verdict of processing one line (enum `ParseResult` of the `event` module). -/
inductive ParseResult
  | Next
  | Dispatch
  | SetRetry (ms : Nat)
deriving DecidableEq, Repr

/-- Split a character list at the first colon: the part before it, and
(when a colon is present) the part after it. -/
def splitColon : List Char → List Char × Option (List Char)
  | [] => ([], none)
  | c :: rest =>
    if c = ':' then ([], some rest)
    else
      let (n, v) := splitColon rest
      (c :: n, v)

/-- Strip one leading space, if present. -/
def dropLeadingSpace : List Char → List Char
  | ' ' :: rest => rest
  | l => l

/-- Strip a terminating "\r\n" or "\n", if present. -/
def stripTerminator (l : List Char) : List Char :=
  match l.reverse with
  | '\n' :: '\r' :: rest => rest.reverse
  | '\n' :: rest => rest.reverse
  | _ => l

/-- Parse a run of decimal digits as a natural number (the `retry` value). -/
def parseNatAux : List Char → Nat → Option Nat
  | [], acc => some acc
  | ch :: rest, acc =>
    if '0' ≤ ch ∧ ch ≤ '9' then parseNatAux rest (acc * 10 + (ch.toNat - 48))
    else none

/-- Parse a non-empty all-digits string as an unsigned integer. -/
def parseNat? (l : List Char) : Option Nat :=
  if l = [] then none else parseNatAux l 0

/-- Classification of one line of the stream: blank (dispatch trigger),
comment (first character `:`), or a `name: value` field.  Depends only on
the line, never on the accumulator. -/
inductive LineKind
  | blank
  | comment
  | field (name : String) (value : List Char)
deriving DecidableEq, Repr

/-- Split a line into its `LineKind` per the grammar of spec section 4.1. -/
def classifyLine (line : String) : LineKind :=
  let content := stripTerminator line.toList
  if content = [] then LineKind.blank
  else if content.head? = some ':' then LineKind.comment
  else
    let (nameCs, restCs) := splitColon content
    LineKind.field (String.mk nameCs)
      (match restCs with
       | none => []
       | some vs => dropLeadingSpace vs)

/-- Modelled from the spec: `parse_event_line` lives in the `event` module
(`super::event`), which is not part of the provided sources.  Grammar per
spec section 4.1: a blank line dispatches; a line whose first character is
`:` is a comment; otherwise the line splits at the first `:` into field name
and value (no colon: whole line is the name, value empty), one leading space
of the value is stripped; `data` appends to the data buffer with a newline
separator when the buffer is non-empty; `event` sets the type; `id` sets the
id; `retry` with an unsigned-integer value yields a retry update, otherwise
it is ignored; unknown fields are ignored. -/
def parse_event_line (line : String) (event : Event) : ParseResult × Event :=
  match classifyLine line with
  | LineKind.blank => (ParseResult.Dispatch, event)
  | LineKind.comment => (ParseResult.Next, event)
  | LineKind.field field valueCs =>
    let value : String := String.mk valueCs
    if field = "data" then
      (ParseResult.Next,
       { event with data := if event.data = "" then value else event.data ++ "\n" ++ value })
    else if field = "event" then
      (ParseResult.Next, { event with event_type := value })
    else if field = "id" then
      (ParseResult.Next, { event with id := some value })
    else if field = "retry" then
      match parseNat? valueCs with
      | some n => (ParseResult.SetRetry n, event)
      | none => (ParseResult.Next, event)
    else (ParseResult.Next, event)

/-- A MIME type: essence type, subtype, and parameters (ignored by the
content-type check, kept because `InvalidContentType` carries the full mime). -/
structure Mime where
  type_ : String
  subtype : String
  params : List (String × String)
deriving DecidableEq, Repr

/-- The error enum of the `errors` module: foreign links `Reqwest` (transport
failure during `send`) and `Io` (failure reading body bytes), plus the
declared kinds `Http`, `InvalidContentType`, `NoContentType`.  Foreign error
payloads are opaque, modelled as numbers. -/
inductive Error
  | Reqwest (e : Nat)
  | Io (e : Nat)
  | Http (status : Nat)
  | InvalidContentType (mime : Mime)
  | NoContentType
deriving DecidableEq, Repr

/-- Header names compare case-insensitively (hyper `Headers`). -/
def headerNameEq (a b : String) : Bool :=
  a.toList.map Char.toLower = b.toList.map Char.toLower

/-- A header map (hyper `Headers`): association list of name / value. -/
structure Headers where
  entries : List (String × String)
deriving DecidableEq, Repr

/-- `Headers::new()`. -/
def Headers.new : Headers := ⟨[]⟩

/-- `Headers::set` / `Headers::set_raw`: replace any existing value stored
under the (case-insensitive) name. -/
def Headers.set (h : Headers) (name value : String) : Headers :=
  ⟨(name, value) :: h.entries.filter (fun p => !headerNameEq p.1 name)⟩

/-- Look up a header by (case-insensitive) name. -/
def Headers.get (h : Headers) (name : String) : Option String :=
  (h.entries.find? (fun p => headerNameEq p.1 name)).map Prod.snd

/-- One read from the buffered line source: `read_line` either yields a full
line (with its terminator) or fails with an I/O error; end of stream is the
exhaustion of the list. -/
inductive ReadItem
  | line (s : String)
  | ioErr (e : Nat)
deriving DecidableEq, Repr

/-- The body of a response, as the sequence of reads it will produce. -/
abbrev Body := List ReadItem

/-- Outcome of one connect attempt, decided by the environment: either the
`send` call fails with a transport error, or a response arrives with a
status code, an optional `Content-Type` header and a body. -/
inductive AttemptOutcome
  | transportErr (e : Nat)
  | response (status : Nat) (contentType : Option Mime) (body : Body)
deriving DecidableEq, Repr

/-- An outbound HTTP request as issued by `next_request`. -/
structure Request where
  method : String
  url : String
  headers : Headers
deriving DecidableEq, Repr

/-- The client state (struct `Client` of `src/reqwest.rs`).  `response` is
the optional buffered line source over the active connection's body;
`last_try` is the last attempt timestamp (an `Instant`, modelled as a clock
value); `retry` is the reconnection time in milliseconds. -/
structure Client where
  response : Option Body
  url : String
  last_event_id : Option String
  last_try : Option Nat
  retry : Nat
  default_headers : Headers
deriving DecidableEq, Repr

/-- `Client::new(url)`: no request is made; default retry of 5000 ms
(`DEFAULT_RETRY`), no last-event-id, no previous attempt, no connection. -/
def Client.new (url : String) : Client :=
  { response := none
    url := url
    last_event_id := none
    last_try := none
    retry := 5000
    default_headers := Headers.new }

/-- The environment: the logical clock, the oracle resolving connect
attempts, and the index of the next attempt. -/
structure World where
  clock : Nat
  attempts : Nat → AttemptOutcome
  attemptIdx : Nat

/-- `StatusCode::is_success`: the 2xx class. -/
def statusIsSuccess (status : Nat) : Bool := 200 ≤ status ∧ status < 300

/-- The request built by `next_request`: a GET to the client's url with the
cloned default headers, `Accept: text/event-stream` set over them, and
`Last-Event-ID` set over them when a last-event-id is present. -/
def Client.buildRequest (c : Client) : Request :=
  let headers := c.default_headers.set "Accept" "text/event-stream"
  let headers :=
    match c.last_event_id with
    | some id => headers.set "Last-Event-ID" id
    | none => headers
  { method := "GET", url := c.url, headers := headers }

/-- `Client::next_request`: build and send the request; on a response, check
the status code, then the `Content-Type` header (comparing type and subtype
only, mime parameters ignored); on success store the body, wrapped as a
buffered line source, as the active connection.  Returns the issued request,
the result, and the updated client. -/
def Client.next_request (c : Client) (o : AttemptOutcome) :
    Request × Except Error Unit × Client :=
  let req := c.buildRequest
  match o with
  | AttemptOutcome.transportErr e => (req, Except.error (Error.Reqwest e), c)
  | AttemptOutcome.response status contentType body =>
    if ¬ statusIsSuccess status then
      (req, Except.error (Error.Http status), c)
    else
      match contentType with
      | some ct =>
        if (ct.type_, ct.subtype) ≠ ("text", "event-stream") then
          (req, Except.error (Error.InvalidContentType ct), c)
        else
          (req, Except.ok (), { c with response := some body })
      | none => (req, Except.error Error.NoContentType, c)

/-- Outcome of the line-reading loop inside `next`: a dispatched event, end
of stream (`read_line` returned 0 bytes), or an I/O read failure. -/
inductive LoopResult
  | dispatched (ev : Event)
  | eof
  | ioError (e : Nat)
deriving DecidableEq, Repr

/-- The read loop of `next` (src/reqwest.rs lines 141-163): read lines one at
a time, feed each to the parser against the local accumulator; `Next`
continues, `SetRetry` updates the retry interval and continues, `Dispatch`
stops with the event; returns the loop outcome, the final retry interval and
the remaining reads of the body. -/
def readLoop (event : Event) (retry : Nat) : Body → LoopResult × Nat × Body
  | [] => (LoopResult.eof, retry, [])
  | ReadItem.ioErr e :: rest => (LoopResult.ioError e, retry, rest)
  | ReadItem.line s :: rest =>
    match parse_event_line s event with
    | (ParseResult.Next, ev') => readLoop ev' retry rest
    | (ParseResult.Dispatch, ev') => (LoopResult.dispatched ev', retry, rest)
    | (ParseResult.SetRetry d, ev') => readLoop ev' d rest

/-- The sleep performed before a reconnect attempt (src/reqwest.rs lines
124-129): when a previous attempt timestamp exists and the elapsed time is
less than the retry interval, sleep for the remainder; otherwise do not
sleep. -/
def waitDur (last_try : Option Nat) (retry clock : Nat) : Nat :=
  match last_try with
  | some t => if clock - t < retry then retry - (clock - t) else 0
  | none => 0

/-- The connect phase of `next` (src/reqwest.rs lines 122-134): when no
active connection exists, wait out the retry interval, record "now" as the
new attempt timestamp unconditionally, and perform the connect attempt; a
failed attempt is an early return (`Sum.inl`) carrying the error. -/
def connectStep (c : Client) (w : World) :
    (Error × Client × World) ⊕ (Client × World) :=
  match c.response with
  | some _ => Sum.inr (c, w)
  | none =>
    let d := waitDur c.last_try c.retry w.clock
    let clock1 := w.clock + d
    let c1 := { c with last_try := some clock1 }
    let w1 : World := { w with clock := clock1, attemptIdx := w.attemptIdx + 1 }
    match (Client.next_request c1 (w.attempts w.attemptIdx)).2 with
    | (Except.error e, c2) => Sum.inl (e, c2, w1)
    | (Except.ok _, c2) => Sum.inr (c2, w1)

instance (ε α : Type) [DecidableEq ε] [DecidableEq α] : DecidableEq (Except ε α) :=
  fun a b =>
    match a, b with
    | Except.ok x, Except.ok y =>
      if h : x = y then isTrue (by rw [h])
      else isFalse (by intro hh; injection hh; contradiction)
    | Except.error x, Except.error y =>
      if h : x = y then isTrue (by rw [h])
      else isFalse (by intro hh; injection hh; contradiction)
    | Except.ok _, Except.error _ => isFalse (by intro h; cases h)
    | Except.error _, Except.ok _ => isFalse (by intro h; cases h)

/-- The value of one `next()` call: either `Some(result)` of the iterator, or
the panic of the `unwrap` at src/reqwest.rs:139 (shown unreachable). -/
inductive NextOut
  | yield (r : Except Error Event)
  | panicked
deriving DecidableEq, Repr

/-- `Iterator::next` (src/reqwest.rs lines 121-175).  The fuel counts
invocations: the Rust code restarts after end-of-stream or a read error by
calling `self.next()` recursively (line 171), which here consumes one unit
of fuel; `none` means the recursion depth exceeded the fuel.  On dispatch,
an event id (when present) becomes the new last-event-id; on end-of-stream
or a read I/O error the attempt timestamp is refreshed, the connection is
dropped, and `next` re-invokes itself — the I/O error value is discarded by
the `None | Some(Err(_))` arm at line 167. -/
def Client.next : Nat → Client → World → Option (NextOut × Client × World)
  | 0, _, _ => none
  | Nat.succ fuel, c, w =>
    match connectStep c w with
    | Sum.inl (e, c', w') => some (NextOut.yield (Except.error e), c', w')
    | Sum.inr (c', w') =>
      match c'.response with
      | none => some (NextOut.panicked, c', w')
      | some body =>
        match readLoop Event.new c'.retry body with
        | (LoopResult.dispatched ev, retry', rest) =>
          some (NextOut.yield (Except.ok ev),
                { c' with
                  retry := retry'
                  response := some rest
                  last_event_id :=
                    match ev.id with
                    | some i => some i
                    | none => c'.last_event_id },
                w')
        | (LoopResult.eof, retry', _) =>
          Client.next fuel
            { c' with retry := retry', response := none, last_try := some w'.clock } w'
        | (LoopResult.ioError _, retry', _) =>
          Client.next fuel
            { c' with retry := retry', response := none, last_try := some w'.clock } w'

/-! Helper constants used by concrete instances. -/

/-- The mime type `text/event-stream`. -/
def mimeES : Mime := { type_ := "text", subtype := "event-stream", params := [] }

/-- A successful connect attempt whose body ends immediately (end of
stream before any line). -/
def eofAttempt : AttemptOutcome := AttemptOutcome.response 200 (some mimeES) []

/-- A successful connect attempt whose body dispatches one (empty) event. -/
def dispatchAttempt : AttemptOutcome :=
  AttemptOutcome.response 200 (some mimeES) [ReadItem.line "\n"]

/-- An environment whose every connect attempt yields a 404 response. -/
def att404 : Nat → AttemptOutcome :=
  fun _ => AttemptOutcome.response 404 (some mimeES) []

/-- The world after the sleep and the attempt bookkeeping of the connect
phase: the clock has advanced by the wait, and the attempt index moved on. -/
def stepWorld (c : Client) (w : World) : World :=
  { w with clock := w.clock + waitDur c.last_try c.retry w.clock, attemptIdx := w.attemptIdx + 1 }

/-- What `next` does with the outcome of the read loop: dispatch yields the
event (recording its id, when present, as the new last-event-id and keeping
the read position); end-of-stream and read I/O errors drop the connection,
record a fresh attempt timestamp and re-invoke `next`. -/
def afterRead (c : Client) (w : World) (fuel : Nat) :
    LoopResult × Nat × Body → Option (NextOut × Client × World)
  | (LoopResult.dispatched ev, retry', rest) =>
    some (NextOut.yield (Except.ok ev),
          { c with
            retry := retry'
            response := some rest
            last_event_id :=
              match ev.id with
              | some i => some i
              | none => c.last_event_id }, w)
  | (LoopResult.eof, retry', _) =>
    Client.next fuel { c with retry := retry', response := none, last_try := some w.clock } w
  | (LoopResult.ioError _, retry', _) =>
    Client.next fuel { c with retry := retry', response := none, last_try := some w.clock } w

/-! Header-map lemmas. -/

lemma headerNameEq_comm (a b : String) : headerNameEq a b = headerNameEq b a := by
  simp only [headerNameEq, decide_eq_decide]
  exact eq_comm

lemma find?_filter_ne (n n' : String) (hne : headerNameEq n' n = false) :
    ∀ l : List (String × String),
      List.find? (fun p => headerNameEq p.1 n') (l.filter (fun p => !headerNameEq p.1 n)) =
      List.find? (fun p => headerNameEq p.1 n') l
  | [] => rfl
  | (a, b) :: l => by
    by_cases han : headerNameEq a n = true
    · have han' : headerNameEq a n' = false := by
        simp only [headerNameEq, decide_eq_true_eq, decide_eq_false_iff_not] at han hne ⊢
        intro h
        exact hne (h.symm.trans han)
      simp [List.filter_cons, List.find?_cons, han, han', find?_filter_ne n n' hne l]
    · have han2 : headerNameEq a n = false := by simpa using han
      by_cases han' : headerNameEq a n' = true
      · simp [List.filter_cons, List.find?_cons, han2, han']
      · have h3 : headerNameEq a n' = false := by simpa using han'
        simp [List.filter_cons, List.find?_cons, han2, h3, find?_filter_ne n n' hne l]

lemma Headers.get_set_self (h : Headers) (n n' v : String) (he : headerNameEq n' n = true) :
    (h.set n v).get n' = some v := by
  have hnn : headerNameEq n n' = true := by rw [headerNameEq_comm]; exact he
  simp [Headers.get, Headers.set, List.find?_cons, hnn]

lemma Headers.get_set_other (h : Headers) (n n' v : String) (hne : headerNameEq n' n = false) :
    (h.set n v).get n' = h.get n' := by
  have hnn : headerNameEq n n' = false := by rw [headerNameEq_comm]; exact hne
  simp [Headers.get, Headers.set, List.find?_cons, hnn, find?_filter_ne n n' hne]

/-! Lemmas about the built request and `next_request`. -/

lemma buildRequest_method (c : Client) : c.buildRequest.method = "GET" := by
  unfold Client.buildRequest
  cases c.last_event_id <;> rfl

lemma buildRequest_url (c : Client) : c.buildRequest.url = c.url := by
  unfold Client.buildRequest
  cases c.last_event_id <;> rfl

lemma buildRequest_accept (c : Client) :
    c.buildRequest.headers.get "Accept" = some "text/event-stream" := by
  unfold Client.buildRequest
  cases c.last_event_id with
  | none => exact Headers.get_set_self _ _ _ _ (by decide)
  | some id =>
    dsimp only
    rw [Headers.get_set_other _ _ _ _ (by decide)]
    exact Headers.get_set_self _ _ _ _ (by decide)

lemma buildRequest_leid (c : Client) (v : String) (h : c.last_event_id = some v) :
    c.buildRequest.headers.get "Last-Event-ID" = some v := by
  unfold Client.buildRequest
  rw [h]
  exact Headers.get_set_self _ _ _ _ (by decide)

lemma buildRequest_other (c : Client) (name : String)
    (ha : headerNameEq name "Accept" = false)
    (hl : c.last_event_id = none ∨ headerNameEq name "Last-Event-ID" = false) :
    c.buildRequest.headers.get name = c.default_headers.get name := by
  unfold Client.buildRequest
  cases hv : c.last_event_id with
  | none => exact Headers.get_set_other _ _ _ _ ha
  | some id =>
    dsimp only
    have hlf : headerNameEq name "Last-Event-ID" = false := by
      rcases hl with h | h
      · rw [hv] at h; cases h
      · exact h
    rw [Headers.get_set_other _ _ _ _ hlf, Headers.get_set_other _ _ _ _ ha]

lemma next_request_fst (c : Client) (o : AttemptOutcome) :
    (Client.next_request c o).1 = c.buildRequest := by
  cases o <;> unfold Client.next_request <;> dsimp only <;> (repeat' split) <;> rfl

lemma next_request_client_frame (c : Client) (o : AttemptOutcome) :
    ((Client.next_request c o).2.2).last_event_id = c.last_event_id ∧
    ((Client.next_request c o).2.2).retry = c.retry ∧
    ((Client.next_request c o).2.2).url = c.url ∧
    ((Client.next_request c o).2.2).default_headers = c.default_headers ∧
    ((Client.next_request c o).2.2).last_try = c.last_try := by
  cases o <;> unfold Client.next_request <;> dsimp only <;> (repeat' split) <;>
    exact ⟨rfl, rfl, rfl, rfl, rfl⟩

lemma next_request_error_frame (c : Client) (o : AttemptOutcome) (req : Request)
    (e : Error) (c' : Client) (h : Client.next_request c o = (req, Except.error e, c')) :
    c' = c := by
  cases o <;> unfold Client.next_request at h <;> dsimp only at h <;> (repeat' split at h) <;>
    (first
      | (injection h with h1 h2; injection h2 with h3 h4; exact h4.symm)
      | (injection h with h1 h2; injection h2 with h3 h4; cases h3))

lemma next_request_ok_shape (c : Client) (o : AttemptOutcome) (req : Request)
    (u : Unit) (c' : Client) (h : Client.next_request c o = (req, Except.ok u, c')) :
    ∃ b, c' = { c with response := some b } := by
  cases o <;> unfold Client.next_request at h <;> dsimp only at h <;> (repeat' split at h) <;>
    (first
      | (injection h with h1 h2; injection h2 with h3 h4; exact ⟨_, h4.symm⟩)
      | (injection h with h1 h2; injection h2 with h3 h4; cases h3))

lemma next_request_snd_error (c : Client) (o : AttemptOutcome) (e : Error) (c' : Client)
    (h : (Client.next_request c o).2 = (Except.error e, c')) : c' = c := by
  have h2 : Client.next_request c o =
      ((Client.next_request c o).1, (Client.next_request c o).2) := (Prod.mk.eta).symm
  rw [h] at h2
  exact next_request_error_frame c o _ e c' h2

lemma next_request_snd_ok (c : Client) (o : AttemptOutcome) (u : Unit) (c' : Client)
    (h : (Client.next_request c o).2 = (Except.ok u, c')) :
    ∃ b, c' = { c with response := some b } := by
  have h2 : Client.next_request c o =
      ((Client.next_request c o).1, (Client.next_request c o).2) := (Prod.mk.eta).symm
  rw [h] at h2
  exact next_request_ok_shape c o _ u c' h2

/-! Lemmas about the connect phase. -/

lemma connectStep_of_some (c : Client) (w : World) (b : Body) (h : c.response = some b) :
    connectStep c w = Sum.inr (c, w) := by
  unfold connectStep
  rw [h]

lemma connectStep_inl_spec (c : Client) (w : World) (e : Error) (c' : Client) (w' : World)
    (h : connectStep c w = Sum.inl (e, c', w')) :
    c.response = none ∧
    w' = stepWorld c w ∧
    c' = { c with last_try := some w'.clock } ∧
    (Client.next_request { c with last_try := some w'.clock }
      (w.attempts w.attemptIdx)).2.1 = Except.error e := by
  unfold connectStep at h
  cases hr : c.response with
  | some b => rw [hr] at h; cases h
  | none =>
    rw [hr] at h
    dsimp only at h
    split at h
    case h_1 e2 c2 heq =>
      injection h with h1
      injection h1 with ha hb
      injection hb with hc hd
      subst ha hc hd
      have hc2 := next_request_snd_error _ _ _ _ heq
      subst hc2
      refine ⟨rfl, rfl, rfl, ?_⟩
      rw [heq]
    case h_2 u c2 heq => cases h

lemma connectStep_inr_spec (c : Client) (w : World) (c' : Client) (w' : World)
    (h : connectStep c w = Sum.inr (c', w')) :
    (c.response = none → ∃ b, c'.response = some b) ∧
    (∀ b, c.response = some b → c' = c ∧ w' = w) ∧
    c'.last_event_id = c.last_event_id ∧
    c'.retry = c.retry ∧
    c'.url = c.url ∧
    c'.default_headers = c.default_headers := by
  unfold connectStep at h
  cases hr : c.response with
  | some b =>
    rw [hr] at h
    injection h with h1
    injection h1 with ha hb
    subst ha hb
    refine ⟨?_, fun b2 _ => ⟨rfl, rfl⟩, rfl, rfl, rfl, rfl⟩
    intro hx
    exact Option.noConfusion hx
  | none =>
    rw [hr] at h
    dsimp only at h
    split at h
    case h_1 e2 c2 heq => cases h
    case h_2 u c2 heq =>
      injection h with h1
      injection h1 with ha hb
      subst ha hb
      obtain ⟨b, hb⟩ := next_request_snd_ok _ _ _ _ heq
      subst hb
      refine ⟨fun _ => ⟨b, rfl⟩, ?_, rfl, rfl, rfl, rfl⟩
      intro b2 hb2
      exact Option.noConfusion hb2

/-- The connect-phase bookkeeping also on a succeeding attempt: starting
disconnected, the world after the phase is `stepWorld` (the sleep happened)
and the stored client carries the post-sleep instant as its attempt
timestamp. -/
lemma connectStep_inr_none_spec (c : Client) (w : World) (c' : Client) (w' : World)
    (hresp : c.response = none) (h : connectStep c w = Sum.inr (c', w')) :
    w' = stepWorld c w ∧ c'.last_try = some w'.clock := by
  unfold connectStep at h
  rw [hresp] at h
  dsimp only at h
  split at h
  case h_1 e2 c2 heq => cases h
  case h_2 u c2 heq =>
    injection h with h1
    injection h1 with ha hb
    subst ha hb
    obtain ⟨b, hb⟩ := next_request_snd_ok _ _ _ _ heq
    subst hb
    exact ⟨rfl, rfl⟩

/-! The main invariant of `next`: the unwrap never panics, and the stored
last-event-id changes only when an event carrying an id is dispatched. -/

lemma next_invariant (fuel : Nat) : ∀ (c : Client) (w : World) (out : NextOut)
    (c' : Client) (w' : World), Client.next fuel c w = some (out, c', w') →
    out ≠ NextOut.panicked ∧
    (∀ e, out = NextOut.yield (Except.error e) → c'.last_event_id = c.last_event_id) ∧
    (∀ ev, out = NextOut.yield (Except.ok ev) →
      (∀ i, ev.id = some i → c'.last_event_id = some i) ∧
      (ev.id = none → c'.last_event_id = c.last_event_id)) := by
  induction fuel with
  | zero => intro c w out c' w' h; cases h
  | succ n ih =>
    intro c w out c' w' h
    simp only [Client.next] at h
    cases hcs : connectStep c w with
    | inl p =>
      obtain ⟨e0, c2, w2⟩ := p
      rw [hcs] at h
      dsimp only at h
      injection h with h1
      injection h1 with ho hcc
      injection hcc with hc2 hw2
      subst ho hc2 hw2
      obtain ⟨hresp, hw', hc', hreq⟩ := connectStep_inl_spec c w e0 c2 w2 hcs
      refine ⟨?_, ?_, ?_⟩
      · intro hp; cases hp
      · intro e he
        rw [hc']
      · intro ev hev
        injection hev with h'
        exact Except.noConfusion h'
    | inr p =>
      obtain ⟨c1, w1⟩ := p
      rw [hcs] at h
      dsimp only at h
      obtain ⟨hsome, hkeep, hle, hretry, _, _⟩ := connectStep_inr_spec c w c1 w1 hcs
      have hb : ∃ b, c1.response = some b := by
        cases hr : c.response with
        | none => exact hsome hr
        | some b =>
          obtain ⟨hc1, _⟩ := hkeep b hr
          rw [hc1, hr]
          exact ⟨b, rfl⟩
      obtain ⟨b, hbr⟩ := hb
      rw [hbr] at h
      dsimp only at h
      cases hrl : readLoop Event.new c1.retry b with
      | mk lr pr =>
        obtain ⟨retry', rest⟩ := pr
        rw [hrl] at h
        cases lr with
        | dispatched ev0 =>
          dsimp only at h
          injection h with h1
          injection h1 with ho hcc
          injection hcc with hc2 hw2
          subst ho hc2 hw2
          refine ⟨?_, ?_, ?_⟩
          · intro hp; cases hp
          · intro e he
            injection he with h'
            exact Except.noConfusion h'
          · intro ev hev
            injection hev with h'
            injection h' with hee
            subst hee
            constructor
            · intro i hi
              simp only [hi]
            · intro hn
              simp only [hn]
              exact hle
        | eof =>
          dsimp only at h
          obtain ⟨hp, herr, hok⟩ := ih _ _ _ _ _ h
          refine ⟨hp, ?_, ?_⟩
          · intro e he
            rw [herr e he]
            exact hle
          · intro ev hev
            obtain ⟨h1, h2⟩ := hok ev hev
            exact ⟨h1, fun hn => (h2 hn).trans hle⟩
        | ioError e0 =>
          dsimp only at h
          obtain ⟨hp, herr, hok⟩ := ih _ _ _ _ _ h
          refine ⟨hp, ?_, ?_⟩
          · intro e he
            rw [herr e he]
            exact hle
          · intro ev hev
            obtain ⟨h1, h2⟩ := hok ev hev
            exact ⟨h1, fun hn => (h2 hn).trans hle⟩

/-- With an active connection, `next` runs the read loop on its body and acts
on the outcome; the connect phase is skipped entirely. -/
lemma next_with_conn (fuel : Nat) (c : Client) (w : World) (b : Body)
    (h : c.response = some b) :
    Client.next (fuel + 1) c w = afterRead c w fuel (readLoop Event.new c.retry b) := by
  simp only [Client.next, connectStep_of_some c w b h, h]
  cases hres : readLoop Event.new c.retry b with
  | mk lr pr =>
    cases pr with
    | mk r2 rest2 => cases lr <;> rfl

/-- The retry verdict leaves the accumulator untouched. -/
lemma parse_retry_acc (s : String) (ev ev' : Event) (d : Nat)
    (h : parse_event_line s ev = (ParseResult.SetRetry d, ev')) : ev' = ev := by
  unfold parse_event_line at h
  cases hcl : classifyLine s with
  | blank => rw [hcl] at h; injection h with h1 h2; exact ParseResult.noConfusion h1
  | comment => rw [hcl] at h; injection h with h1 h2; exact ParseResult.noConfusion h1
  | field f v =>
    rw [hcl] at h
    dsimp only at h
    split_ifs at h <;>
      try (injection h with h1 h2; exact ParseResult.noConfusion h1)
    split at h
    · injection h with h1 h2; exact h2.symm
    · injection h with h1 h2; exact ParseResult.noConfusion h1

/-- The retry verdict does not depend on the accumulator. -/
lemma parse_retry_any (s : String) (ev : Event) (d : Nat)
    (h : parse_event_line s ev = (ParseResult.SetRetry d, ev)) :
    ∀ ev2, parse_event_line s ev2 = (ParseResult.SetRetry d, ev2) := by
  intro ev2
  unfold parse_event_line at h ⊢
  cases hcl : classifyLine s with
  | blank => rw [hcl] at h; injection h with h1 h2; exact ParseResult.noConfusion h1
  | comment => rw [hcl] at h; injection h with h1 h2; exact ParseResult.noConfusion h1
  | field f v =>
    rw [hcl] at h
    dsimp only at h ⊢
    split_ifs at h ⊢ <;>
      try (injection h with h1 h2; exact ParseResult.noConfusion h1)
    split at h
    · rename_i n heq
      injection h with h1 h2
      injection h1 with hn
      subst hn
      simp only [heq]
    · injection h with h1 h2; exact ParseResult.noConfusion h1

/-- A connect attempt answered with a `200 text/event-stream` response whose
body is empty succeeds and stores the empty line source. -/
lemma connectStep_eof (c : Client) (w : World) (hresp : c.response = none)
    (hatt : w.attempts w.attemptIdx = eofAttempt) :
    connectStep c w =
      Sum.inr ({ c with last_try := some (stepWorld c w).clock, response := some [] },
               stepWorld c w) := by
  unfold connectStep
  rw [hresp]
  dsimp only
  rw [hatt]
  rfl

/-- In an environment whose every connect attempt yields an immediately-EOF
stream, `next` exhausts any recursion budget: each reconnect costs one
self-invocation of `next`. -/
lemma next_eof_forever (fuel : Nat) : ∀ (c : Client) (w : World),
    (∀ i, w.attempts i = eofAttempt) →
    (c.response = none ∨ c.response = some []) →
    Client.next fuel c w = none := by
  induction fuel with
  | zero => intros; rfl
  | succ n ih =>
    intro c w hatt hresp
    rcases hresp with hr | hr
    · have hstep := connectStep_eof c w hr (hatt w.attemptIdx)
      simp only [Client.next, hstep, readLoop]
      exact ih _ _ hatt (Or.inl rfl)
    · have hstep := connectStep_of_some c w [] hr
      simp only [Client.next, hstep, hr, readLoop]
      exact ih _ _ hatt (Or.inl rfl)

/-! Claim theorems. -/

/-- C8: `Client::new(url)` (the spec's `construct`) performs no network
activity — it is a pure constructor that consumes nothing from the attempt
oracle — and the returned manager has retry interval 5000 ms, no
last-event-id, no attempt timestamp and no active connection. -/
theorem c8_construct (url : String) :
    (Client.new url).retry = 5000 ∧
    (Client.new url).last_event_id = none ∧
    (Client.new url).last_try = none ∧
    (Client.new url).response = none ∧
    (Client.new url).url = url :=
  ⟨rfl, rfl, rfl, rfl, rfl⟩

/-- C9: whenever `next` reaches the line-reading loop an active connection is
present, so the `unwrap` of the optional response handle
(src/reqwest.rs:139, modelled by the `NextOut.panicked` outcome) never
fires: no execution of `next` produces `panicked`. -/
theorem c9_no_panic (fuel : Nat) (c : Client) (w : World) (out : NextOut)
    (c' : Client) (w' : World) (h : Client.next fuel c w = some (out, c', w')) :
    out ≠ NextOut.panicked :=
  (next_invariant fuel c w out c' w' h).1

/-- Witness for C9 at a concrete input: a client holding a connection whose
first line is blank dispatches an event, and the outcome is not a panic. -/
theorem c9_no_panic_witness :
    NextOut.yield (Except.ok Event.new) ≠ NextOut.panicked :=
  c9_no_panic 1
    { Client.new "http://u/" with response := some [ReadItem.line "\n"] }
    { clock := 0, attempts := att404, attemptIdx := 0 }
    (NextOut.yield (Except.ok Event.new))
    { Client.new "http://u/" with response := some ([] : Body) }
    { clock := 0, attempts := att404, attemptIdx := 0 }
    rfl

/-- C4: `next_request` validates the response in order: a status outside the
2xx range fails with `Http(status)` (spec name `HttpStatus`) and the client
is unchanged (no connection established); with a success status, an absent
`Content-Type` fails with `NoContentType`; a present `Content-Type` whose
(type, subtype) pair — parameters ignored — is not `(text, event-stream)`
fails with `InvalidContentType(mime)`; otherwise the body is stored as the
active connection. -/
theorem c4_validation (c : Client) (status : Nat) (ct : Option Mime) (body : Body) :
    (statusIsSuccess status = false →
      (Client.next_request c (AttemptOutcome.response status ct body)).2 =
        (Except.error (Error.Http status), c)) ∧
    (statusIsSuccess status = true → ct = none →
      (Client.next_request c (AttemptOutcome.response status ct body)).2 =
        (Except.error Error.NoContentType, c)) ∧
    (∀ m, statusIsSuccess status = true → ct = some m →
      (m.type_, m.subtype) ≠ ("text", "event-stream") →
      (Client.next_request c (AttemptOutcome.response status ct body)).2 =
        (Except.error (Error.InvalidContentType m), c)) ∧
    (∀ m, statusIsSuccess status = true → ct = some m →
      (m.type_, m.subtype) = ("text", "event-stream") →
      (Client.next_request c (AttemptOutcome.response status ct body)).2 =
        (Except.ok (), { c with response := some body })) := by
  refine ⟨?_, ?_, ?_, ?_⟩
  · intro hs
    simp [Client.next_request, hs]
  · intro hs hct
    subst hct
    simp [Client.next_request, hs]
  · intro m hs hct hm
    subst hct
    simp [Client.next_request, hs, hm]
  · intro m hs hct hm
    subst hct
    simp [Client.next_request, hs, hm]

/-- Witness for C4 at concrete inputs: a 404 yields `Http 404`; a 200 with
no content type yields `NoContentType`; `text/plain` yields
`InvalidContentType`; `text/event-stream` stores the body. -/
theorem c4_validation_witness :
    (Client.next_request (Client.new "http://u/")
        (AttemptOutcome.response 404 (some mimeES) [])).2 =
      (Except.error (Error.Http 404), Client.new "http://u/") ∧
    (Client.next_request (Client.new "http://u/")
        (AttemptOutcome.response 200 none [])).2 =
      (Except.error Error.NoContentType, Client.new "http://u/") ∧
    (Client.next_request (Client.new "http://u/")
        (AttemptOutcome.response 200 (some (Mime.mk "text" "plain" [])) [])).2 =
      (Except.error (Error.InvalidContentType (Mime.mk "text" "plain" [])),
       Client.new "http://u/") ∧
    (Client.next_request (Client.new "http://u/")
        (AttemptOutcome.response 200 (some mimeES) [ReadItem.line "x"])).2 =
      (Except.ok (),
       { Client.new "http://u/" with response := some [ReadItem.line "x"] }) := by
  refine ⟨?_, ?_, ?_, ?_⟩
  · exact (c4_validation (Client.new "http://u/") 404 (some mimeES) []).1 (by decide)
  · exact (c4_validation (Client.new "http://u/") 200 none []).2.1 (by decide) rfl
  · exact (c4_validation (Client.new "http://u/") 200 (some (Mime.mk "text" "plain" [])) []).2.2.1
      (Mime.mk "text" "plain" []) (by decide) rfl (by decide)
  · exact (c4_validation (Client.new "http://u/") 200 (some mimeES) [ReadItem.line "x"]).2.2.2
      mimeES (by decide) rfl (by decide)

/-- C7: every outbound request of a connect attempt is the built request: a
GET to the target url whose headers are the default headers with
`Accept: text/event-stream` set over them and, when a last-event-id is set,
`Last-Event-ID` set over them; the two protocol headers replace any
conflicting caller-supplied default (case-insensitively), and all other
default headers pass through unchanged. -/
theorem c7_request (c : Client) (o : AttemptOutcome) :
    (Client.next_request c o).1 = c.buildRequest ∧
    c.buildRequest.method = "GET" ∧
    c.buildRequest.url = c.url ∧
    c.buildRequest.headers.get "Accept" = some "text/event-stream" ∧
    (∀ v, c.last_event_id = some v →
      c.buildRequest.headers.get "Last-Event-ID" = some v) ∧
    (∀ name, headerNameEq name "Accept" = false →
      (c.last_event_id = none ∨ headerNameEq name "Last-Event-ID" = false) →
      c.buildRequest.headers.get name = c.default_headers.get name) :=
  ⟨next_request_fst c o, buildRequest_method c, buildRequest_url c, buildRequest_accept c,
   fun v h => buildRequest_leid c v h, fun name ha hl => buildRequest_other c name ha hl⟩

/-- Witness for C7 at a concrete client: a caller-supplied lowercase
`accept` default is overridden by the protocol `Accept`, the stored id "42"
is sent as `Last-Event-ID`, and an unrelated default header passes
through. -/
theorem c7_request_witness :
    (Client.next_request
        { Client.new "http://u/" with
          last_event_id := some "42"
          default_headers := (Headers.new.set "accept" "application/json").set "X-Custom" "1" }
        (AttemptOutcome.transportErr 0)).1 =
      Client.buildRequest
        { Client.new "http://u/" with
          last_event_id := some "42"
          default_headers := (Headers.new.set "accept" "application/json").set "X-Custom" "1" } ∧
    (Client.buildRequest
        { Client.new "http://u/" with
          last_event_id := some "42"
          default_headers :=
            (Headers.new.set "accept" "application/json").set "X-Custom" "1" }).headers.get
      "Accept" = some "text/event-stream" ∧
    (Client.buildRequest
        { Client.new "http://u/" with
          last_event_id := some "42"
          default_headers :=
            (Headers.new.set "accept" "application/json").set "X-Custom" "1" }).headers.get
      "Last-Event-ID" = some "42" ∧
    (Client.buildRequest
        { Client.new "http://u/" with
          last_event_id := some "42"
          default_headers :=
            (Headers.new.set "accept" "application/json").set "X-Custom" "1" }).headers.get
      "X-Custom" = some "1" := by
  obtain ⟨h1, _, _, h4, h5, h6⟩ := c7_request
    { Client.new "http://u/" with
      last_event_id := some "42"
      default_headers := (Headers.new.set "accept" "application/json").set "X-Custom" "1" }
    (AttemptOutcome.transportErr 0)
  refine ⟨h1, h4, h5 "42" rfl, ?_⟩
  rw [h6 "X-Custom" (by decide) (Or.inr (by decide))]
  decide

/-- C10: a failing connect attempt mutates nothing but the attempt
timestamp: `next_request` returning an error leaves the client exactly as it
was, and at the `next` level the failing call yields that error with
last-event-id, retry interval, url and default headers unchanged, no active
connection, and the timestamp set (before the attempt) to the attempt
instant. -/
theorem c10_frame (fuel : Nat) (c : Client) (w : World) (e : Error)
    (c' : Client) (w' : World) (h : connectStep c w = Sum.inl (e, c', w')) :
    Client.next (fuel + 1) c w = some (NextOut.yield (Except.error e), c', w') ∧
    c'.last_event_id = c.last_event_id ∧
    c'.retry = c.retry ∧
    c'.url = c.url ∧
    c'.default_headers = c.default_headers ∧
    c'.response = none ∧
    c'.last_try = some w'.clock ∧
    (∀ (o : AttemptOutcome) (req : Request) (e2 : Error) (c2 : Client),
      Client.next_request c o = (req, Except.error e2, c2) → c2 = c) := by
  obtain ⟨hresp, hw, hc', _⟩ := connectStep_inl_spec c w e c' w' h
  refine ⟨?_, ?_, ?_, ?_, ?_, ?_, ?_, ?_⟩
  · simp only [Client.next, h]
  · rw [hc']
  · rw [hc']
  · rw [hc']
  · rw [hc']
  · rw [hc']; exact hresp
  · rw [hc']
  · intro o req e2 c2 hh
    exact next_request_error_frame c o req e2 c2 hh

/-- Witness for C10 at a concrete input: a 404 connect attempt from a fresh
client yields the error and leaves everything but the timestamp unchanged. -/
theorem c10_frame_witness :
    Client.next 1 (Client.new "http://u/") { clock := 0, attempts := att404, attemptIdx := 0 } =
      some (NextOut.yield (Except.error (Error.Http 404)),
        { Client.new "http://u/" with last_try := some 0 },
        { clock := 0, attempts := att404, attemptIdx := 1 }) ∧
    ({ Client.new "http://u/" with last_try := some 0 } : Client).response = none ∧
    ({ Client.new "http://u/" with last_try := some 0 } : Client).last_event_id = none := by
  obtain ⟨h1, h2, _, _, _, h6, _, _⟩ := c10_frame 0 (Client.new "http://u/")
    { clock := 0, attempts := att404, attemptIdx := 0 } (Error.Http 404)
    { Client.new "http://u/" with last_try := some 0 }
    { clock := 0, attempts := att404, attemptIdx := 1 } rfl
  exact ⟨h1, h6, h2⟩

/-- C3: an event dispatched by `next` carrying an id installs that id as the
new last-event-id in the returned state; an event without an id leaves the
stored last-event-id unchanged; a call returning an error never changes it
(so it persists across arbitrarily many reconnects until a newer id is
dispatched); and every outbound request built while a last-event-id is set
carries the `Last-Event-ID` header with that value. -/
theorem c3_last_event_id (fuel : Nat) (c : Client) (w : World) (c' : Client)
    (w' : World) (o : AttemptOutcome) :
    (∀ ev, Client.next fuel c w = some (NextOut.yield (Except.ok ev), c', w') →
      (∀ i, ev.id = some i → c'.last_event_id = some i) ∧
      (ev.id = none → c'.last_event_id = c.last_event_id)) ∧
    (∀ e, Client.next fuel c w = some (NextOut.yield (Except.error e), c', w') →
      c'.last_event_id = c.last_event_id) ∧
    (∀ v, c.last_event_id = some v →
      (Client.next_request c o).1.headers.get "Last-Event-ID" = some v) := by
  refine ⟨?_, ?_, ?_⟩
  · intro ev h
    exact (next_invariant fuel c w _ c' w' h).2.2 ev rfl
  · intro e h
    exact (next_invariant fuel c w _ c' w' h).2.1 e rfl
  · intro v hv
    rw [next_request_fst]
    exact buildRequest_leid c v hv

/-- Witness for C3 at a concrete input: dispatching `id: 42` stores the id,
and the next request built from the resulting state sends it back. -/
theorem c3_last_event_id_witness :
    ({ Client.new "http://u/" with response := some ([] : Body), last_event_id := some "42" } : Client).last_event_id = some "42" ∧
    (Client.next_request
        { Client.new "http://u/" with response := some ([] : Body), last_event_id := some "42" }
        eofAttempt).1.headers.get "Last-Event-ID" = some "42" := by
  refine ⟨?_, ?_⟩
  · exact ((c3_last_event_id 1
      { Client.new "http://u/" with response := some [ReadItem.line "id: 42\n", ReadItem.line "\n"] }
      { clock := 0, attempts := att404, attemptIdx := 0 }
      { Client.new "http://u/" with response := some ([] : Body), last_event_id := some "42" }
      { clock := 0, attempts := att404, attemptIdx := 0 } eofAttempt).1
      { id := some "42", event_type := "message", data := "" } rfl).1 "42" rfl
  · exact (c3_last_event_id 0
      { Client.new "http://u/" with response := some ([] : Body), last_event_id := some "42" }
      { clock := 0, attempts := att404, attemptIdx := 0 }
      (Client.new "http://u/") { clock := 0, attempts := att404, attemptIdx := 0 }
      eofAttempt).2.2 "42" rfl

/-- C5: for every call with no active connection and a previous attempt
timestamp `t`: when the elapsed time `clock - t` is below the retry interval
the call sleeps for exactly the remainder, so the attempt happens at
`t + retry` (`stepWorld` is the world after the sleep and attempt
bookkeeping, used by both outcomes of `connectStep`); when the elapsed time
already reached the interval there is no sleep; either way the attempt
instant is at least `retry` after the previous timestamp.  The post-sleep
instant is recorded as the new attempt timestamp unconditionally before the
attempt — on a failing attempt and on a succeeding one alike — and a failing
attempt makes that error the result of the call, leaving no active
connection. -/
theorem c5_retry_wait (fuel : Nat) (c : Client) (w : World) (t : Nat)
    (hresp : c.response = none) (ht : c.last_try = some t) (htc : t ≤ w.clock) :
    (w.clock - t < c.retry →
      (stepWorld c w).clock = w.clock + (c.retry - (w.clock - t)) ∧
      (stepWorld c w).clock = t + c.retry) ∧
    (c.retry ≤ w.clock - t → (stepWorld c w).clock = w.clock) ∧
    t + c.retry ≤ (stepWorld c w).clock ∧
    (∀ e c' w', connectStep c w = Sum.inl (e, c', w') →
      w' = stepWorld c w ∧
      c'.last_try = some w'.clock ∧
      Client.next (fuel + 1) c w = some (NextOut.yield (Except.error e), c', w') ∧
      c'.response = none) ∧
    (∀ c' w', connectStep c w = Sum.inr (c', w') →
      w' = stepWorld c w ∧ c'.last_try = some w'.clock) := by
  have hclock : (stepWorld c w).clock = w.clock + waitDur c.last_try c.retry w.clock := rfl
  rw [ht] at hclock
  simp only [waitDur] at hclock
  refine ⟨?_, ?_, ?_, ?_, ?_⟩
  · intro hlt
    rw [if_pos hlt] at hclock
    exact ⟨hclock, by omega⟩
  · intro hge
    rw [if_neg (by omega)] at hclock
    omega
  · by_cases hlt : w.clock - t < c.retry
    · rw [if_pos hlt] at hclock
      omega
    · rw [if_neg hlt] at hclock
      omega
  · intro e c' w' h
    obtain ⟨_, hw, hc', _⟩ := connectStep_inl_spec c w e c' w' h
    refine ⟨hw, ?_, ?_, ?_⟩
    · rw [hc']
    · simp only [Client.next, h]
    · rw [hc']
      exact hresp
  · intro c' w' h
    exact connectStep_inr_none_spec c w c' w' hresp h

/-- Witness for C5 at concrete inputs: previous attempt at 0, clock 1000,
retry 5000: the call sleeps 4000 so the attempt happens at 5000; against a
404 environment the error is the result with the timestamp recorded and no
connection left; against an environment whose attempt succeeds, the same
timestamp 5000 is recorded just the same. -/
theorem c5_retry_wait_witness :
    (stepWorld { Client.new "http://u/" with last_try := some 0 }
        { clock := 1000, attempts := att404, attemptIdx := 0 }).clock =
      1000 + (5000 - (1000 - 0)) ∧
    Client.next 1 { Client.new "http://u/" with last_try := some 0 }
        { clock := 1000, attempts := att404, attemptIdx := 0 } =
      some (NextOut.yield (Except.error (Error.Http 404)),
        { Client.new "http://u/" with last_try := some 5000 },
        { clock := 5000, attempts := att404, attemptIdx := 1 }) ∧
    ({ Client.new "http://u/" with last_try := some 5000 } : Client).last_try =
      some ({ clock := 5000, attempts := att404, attemptIdx := 1 } : World).clock ∧
    ({ Client.new "http://u/" with last_try := some 5000 } : Client).response = none ∧
    ({ Client.new "http://u/" with last_try := some 5000, response := some ([] : Body) } : Client).last_try =
      some ({ clock := 5000, attempts := fun _ => eofAttempt, attemptIdx := 1 } : World).clock := by
  obtain ⟨h1, _, _, h4, _⟩ := c5_retry_wait 0
    { Client.new "http://u/" with last_try := some 0 }
    { clock := 1000, attempts := att404, attemptIdx := 0 } 0 rfl rfl (by decide)
  obtain ⟨hw4, hlt4, hnext4, hresp4⟩ := h4 (Error.Http 404)
    { Client.new "http://u/" with last_try := some 5000 }
    { clock := 5000, attempts := att404, attemptIdx := 1 } rfl
  obtain ⟨_, _, _, _, h5s⟩ := c5_retry_wait 0
    { Client.new "http://u/" with last_try := some 0 }
    { clock := 1000, attempts := fun _ => eofAttempt, attemptIdx := 0 } 0 rfl rfl (by decide)
  obtain ⟨hws, hlts⟩ := h5s
    { Client.new "http://u/" with last_try := some 5000, response := some ([] : Body) }
    { clock := 5000, attempts := fun _ => eofAttempt, attemptIdx := 1 } rfl
  exact ⟨(h1 (by decide)).1, hnext4, hlt4, hresp4, hlts⟩

/-- C6: a line whose verdict is `SetRetry d` leaves the accumulator
untouched and makes the read loop continue on the same connection with the
retry interval updated to `d` — no dispatch, no return, no reset — and from
then on `next` behaves exactly as a manager whose retry interval is `d`
(so `d` governs all subsequent reconnect waits until changed again). -/
theorem c6_retry_update (s : String) (ev ev' : Event) (r d : Nat) (rest : Body)
    (h : parse_event_line s ev = (ParseResult.SetRetry d, ev')) :
    ev' = ev ∧
    readLoop ev r (ReadItem.line s :: rest) = readLoop ev d rest ∧
    (∀ (fuel : Nat) (c : Client) (w : World),
      c.response = some (ReadItem.line s :: rest) →
      Client.next (fuel + 1) c w =
        Client.next (fuel + 1) { c with retry := d, response := some rest } w) := by
  have hacc := parse_retry_acc s ev ev' d h
  subst ev'
  have hany := parse_retry_any s ev d h
  refine ⟨rfl, ?_, ?_⟩
  · simp only [readLoop, h]
  · intro fuel c w hcr
    rw [next_with_conn fuel c w _ hcr, next_with_conn fuel _ w rest rfl]
    have hrl : readLoop Event.new c.retry (ReadItem.line s :: rest) =
        readLoop Event.new d rest := by
      simp only [readLoop, hany Event.new]
    rw [hrl]
    show afterRead c w fuel (readLoop Event.new d rest) =
      afterRead { c with retry := d, response := some rest } w fuel
        (readLoop Event.new d rest)
    cases hres : readLoop Event.new d rest with
    | mk lr pr =>
      cases pr with
      | mk r2 rest2 => cases lr <;> rfl

/-- Witness for C6 at a concrete input: the line `retry: 3000` updates the
interval from 5000 to 3000 and reading just continues. -/
theorem c6_retry_update_witness :
    readLoop Event.new 5000 [ReadItem.line "retry: 3000\n"] =
      readLoop Event.new 3000 [] ∧
    Client.next 1
        { Client.new "http://u/" with response := some [ReadItem.line "retry: 3000\n"] }
        { clock := 0, attempts := att404, attemptIdx := 0 } =
      Client.next 1
        { Client.new "http://u/" with retry := 3000, response := some ([] : Body) }
        { clock := 0, attempts := att404, attemptIdx := 0 } := by
  obtain ⟨_, h2, h3⟩ := c6_retry_update "retry: 3000\n" Event.new Event.new 5000 3000 [] rfl
  exact ⟨h2, h3 0
    { Client.new "http://u/" with response := some [ReadItem.line "retry: 3000\n"] }
    { clock := 0, attempts := att404, attemptIdx := 0 } rfl⟩

/-- C1 counterexample: with an active connection whose read fails with an
I/O error and an environment answering the reconnect with a 404, the call to
`next` returns `Http 404` — the result of the immediate in-call reconnect —
and does not return the I/O error `Io 7`, contradicting the claim that the
I/O error is the result of this call and that reconnection resumes only on
the following call. -/
theorem c1_io_counterexample :
    (Client.next 2
        { Client.new "http://u/" with response := some [ReadItem.ioErr 7], last_try := some 0 }
        { clock := 0, attempts := att404, attemptIdx := 0 }).map (fun r => r.1) =
      some (NextOut.yield (Except.error (Error.Http 404))) ∧
    ¬ (Client.next 2
        { Client.new "http://u/" with response := some [ReadItem.ioErr 7], last_try := some 0 }
        { clock := 0, attempts := att404, attemptIdx := 0 }).map (fun r => r.1) =
      some (NextOut.yield (Except.error (Error.Io 7))) :=
  ⟨rfl, by decide⟩

/-- C1 amended: on an I/O failure while reading, the manager discards the
active connection and records a fresh attempt timestamp exactly as for
end-of-stream, but the I/O error is not returned: the same call immediately
re-invokes `next` (recursively) and returns whatever the restarted
connect-and-read cycle produces. -/
theorem c1_io_amended (fuel : Nat) (c : Client) (w : World) (e : Nat) (rest : Body)
    (h : c.response = some (ReadItem.ioErr e :: rest)) :
    Client.next (fuel + 1) c w =
      Client.next fuel { c with response := none, last_try := some w.clock } w := by
  rw [next_with_conn fuel c w _ h]
  simp only [readLoop]
  rfl

/-- Witness for C1 at a concrete input: the amended equation evaluated on
the counterexample state. -/
theorem c1_io_amended_witness :
    Client.next 2
        { Client.new "http://u/" with response := some [ReadItem.ioErr 7], last_try := some 0 }
        { clock := 0, attempts := att404, attemptIdx := 0 } =
      Client.next 1
        { Client.new "http://u/" with response := none, last_try := some 0 }
        { clock := 0, attempts := att404, attemptIdx := 0 } :=
  c1_io_amended 1
    { Client.new "http://u/" with response := some [ReadItem.ioErr 7], last_try := some 0 }
    { clock := 0, attempts := att404, attemptIdx := 0 } 7 [] rfl

/-- C2: the restart after end-of-stream is a recursive self-invocation of
`next` (src/reqwest.rs:171), not an iterative loop.  In the model the fuel
counts invocations of `next`, so: in an environment whose every connect
attempt yields an immediately-EOF stream, `next` exhausts every finite
recursion budget (the self-invocation depth grows without bound), and with
three EOF streams followed by a dispatching stream the call needs recursion
depth 4 — depth 3 is exhausted — showing one stack frame per consecutive
reconnect. -/
theorem c2_recursive_restart :
    (∀ fuel : Nat,
      Client.next fuel (Client.new "http://u/")
        { clock := 0, attempts := fun _ => eofAttempt, attemptIdx := 0 } = none) ∧
    Client.next 3 (Client.new "http://u/")
      { clock := 0, attempts := fun i => if i < 3 then eofAttempt else dispatchAttempt,
        attemptIdx := 0 } = none ∧
    (Client.next 4 (Client.new "http://u/")
      { clock := 0, attempts := fun i => if i < 3 then eofAttempt else dispatchAttempt,
        attemptIdx := 0 }).map (fun r => r.1) =
      some (NextOut.yield (Except.ok Event.new)) := by
  refine ⟨?_, rfl, rfl⟩
  intro fuel
  exact next_eof_forever fuel _ _ (fun i => rfl) (Or.inl rfl)

end EventSource
